import Mathlib

/-!
Verification development for the Design Standards Checker plugin
(`src/code.ts` and the extended revision in `src/unnamed/part_001`).

The development has two layers, mirroring the two halves of the source:

1. a dynamic-value layer (`JVal`) embedding the untyped JavaScript object
   operations of the configuration model (`deepMerge`, `updateConfig`,
   `exportCurrentConfig`, `loadConfigFromDocument`), where the distinction
   between a `RegExp` object, a plain object and a string is essential;

2. a typed layer (`StandardsConfig`, `FigmaNode`, `CheckResults`) embedding
   the evaluation engine (`runAllChecks`, `processNode`, the six category
   checkers and their helpers).

JavaScript numbers are modelled as exact rationals (`ℚ`).  The `%` operator
on JS numbers is exact (no rounding), so `jsRem` below is a faithful model;
number-to-string rendering inside issue messages uses rational rendering,
which differs from JS formatting only for non-integral values.

Recursive data is set up as mutual (rather than nested) inductive types so
that every function of the development reduces inside the kernel.
-/

namespace DSC

mutual

/-- Dynamic JavaScript value, as far as the configuration model needs it:
strings, (exact) numbers, arrays, plain objects (insertion-ordered fields)
and RegExp objects (carrying their source and flags). -/
inductive JVal where
  | str (s : String)
  | num (q : ℚ)
  | arr (elems : JArr)
  | obj (fields : JObj)
  | regex (source flags : String)

/-- Element list of a JS array value. -/
inductive JArr where
  | nil
  | cons (v : JVal) (rest : JArr)

/-- Insertion-ordered own-property list of a JS object value. -/
inductive JObj where
  | nil
  | cons (key : String) (v : JVal) (rest : JObj)

end

/-- Building a `JArr` from a list. -/
def JArr.ofList : List JVal → JArr
  | [] => .nil
  | v :: rest => .cons v (JArr.ofList rest)

/-- Building a `JObj` from an association list. -/
def JObj.ofList : List (String × JVal) → JObj
  | [] => .nil
  | (k, v) :: rest => .cons k v (JObj.ofList rest)

/-- Keys of a `JObj`, in order. -/
def JObj.keys : JObj → List String
  | .nil => []
  | .cons k _ rest => k :: JObj.keys rest

/-- Lookup of an own property in an insertion-ordered field list
(first match; JS objects never hold a duplicate key). -/
def lookupField : JObj → String → Option JVal
  | .nil, _ => none
  | .cons k v rest, key => if k == key then some v else lookupField rest key

/-- Property assignment `o[k] = v` on a field list: overwrite in place when
the key exists (keeping insertion order), append otherwise. -/
def setField : JObj → String → JVal → JObj
  | .nil, key, v => .cons key v .nil
  | .cons k w rest, key, v =>
    if k == key then .cons key v rest else .cons k w (setField rest key v)

/-- The `isObject` helper inside `deepMerge`:
`item && typeof item === 'object' && !Array.isArray(item)`.
A RegExp instance satisfies it (its `typeof` is `'object'` and it is not an
array); strings, numbers and arrays do not. -/
def isObject : JVal → Bool
  | .obj _ => true
  | .regex _ _ => true
  | _ => false

/-- The `key in target` test used by `deepMerge`.  Modelled as own-key
membership; the JS `in` operator additionally sees inherited prototype
members (e.g. `toString` on plain objects, `source` on RegExp), which no
configuration key collides with, so those are modelled as absent. -/
def hasKey : JVal → String → Bool
  | .obj fs, key => (lookupField fs key).isSome
  | _, _ => false

/-- Property read `target[key]`, `undefined` (`none`) outside plain objects
(RegExp prototype members are not modelled; see `hasKey`). -/
def getProp : JVal → String → Option JVal
  | .obj fs, key => lookupField fs key
  | _, _ => none

/-- Read `target[key]` in a context where `hasKey target key` is true, so
the default is never exercised. -/
def getPropD (v : JVal) (key : String) : JVal :=
  (getProp v key).getD (.obj .nil)

/-- Nested property read along a path of keys. -/
def getPath : JVal → List String → Option JVal
  | v, [] => some v
  | v, k :: rest =>
    match getProp v k with
    | some child => getPath child rest
    | none => none

/-- Nested property write along a path of keys; used only where the whole
path already exists, the other branches keep the value unchanged. -/
def setPath : JVal → List String → JVal → JVal
  | _, [], x => x
  | .obj fs, k :: rest, x =>
    match lookupField fs k with
    | some child => .obj (setField fs k (setPath child rest x))
    | none => .obj (setField fs k (setPath (.obj .nil) rest x))
  | v, _ :: _, _ => v

/-- Index/value fields contributed by spreading an array, starting at a
given index. -/
def arrSpreadFrom (i : Nat) : JArr → JObj
  | .nil => .nil
  | .cons v rest => .cons (toString i) v (arrSpreadFrom (i + 1) rest)

/-- Index/character fields contributed by spreading a string. -/
def strSpreadFrom (i : Nat) : List Char → JObj
  | [] => .nil
  | c :: rest => .cons (toString i) (JVal.str (String.mk [c])) (strSpreadFrom (i + 1) rest)

/-- Own enumerable properties produced by a spread `{...target}`:
the fields of a plain object, index/character pairs for arrays and strings,
nothing for numbers and RegExp objects. -/
def spreadFields : JVal → JObj
  | .obj fs => fs
  | .arr xs => arrSpreadFrom 0 xs
  | .str s => strSpreadFrom 0 s.data
  | _ => .nil

mutual

/-- Recursion core of `deepMerge`, with the source first (the structurally
decreasing argument) and the target second:
`output = {...target}`; when both sides satisfy `isObject`, iterate the own
enumerable keys of `source` (none for a RegExp source); an object-valued
source entry merges recursively when the key exists in `target` and is
copied otherwise; any other source entry is assigned outright.  The result
is always a fresh plain object. -/
def deepMergeSrc : JVal → JVal → JVal
  | .obj sfs, target =>
    if isObject target then .obj (mergeFields sfs (spreadFields target) target)
    else .obj (spreadFields target)
  | _, target => .obj (spreadFields target)

/-- Iteration of `Object.keys(source).forEach(...)` inside `deepMerge`,
over the source fields, carrying the output object and the target. -/
def mergeFields : JObj → JObj → JVal → JObj
  | .nil, output, _ => output
  | .cons k v rest, output, target =>
    if isObject v then
      if hasKey target k then
        mergeFields rest (setField output k (deepMergeSrc v (getPropD target k))) target
      else
        mergeFields rest (setField output k v) target
    else
      mergeFields rest (setField output k v) target

end

/-- The `deepMerge(target, source)` helper of the checker class, in its
source argument order. -/
def deepMerge (target source : JVal) : JVal :=
  deepMergeSrc source target

/-- The `updateConfig(newConfig)` operation: deep-merge the partial
configuration onto the live one (the subsequent persistence call is a store
side effect outside the value model). -/
def updateConfig (config newConfig : JVal) : JVal :=
  deepMerge config newConfig

mutual

/-- Effect of `JSON.parse(JSON.stringify(v))` on a dynamic value: identity
on JSON-representable data, while a RegExp object serialises as `{}`. -/
def jsonRoundTrip : JVal → JVal
  | .str s => .str s
  | .num q => .num q
  | .arr xs => .arr (jsonRoundTripArr xs)
  | .obj fs => .obj (jsonRoundTripObj fs)
  | .regex _ _ => .obj .nil

/-- Element-wise `jsonRoundTrip` over an array. -/
def jsonRoundTripArr : JArr → JArr
  | .nil => .nil
  | .cons v rest => .cons (jsonRoundTrip v) (jsonRoundTripArr rest)

/-- Field-wise `jsonRoundTrip` over an object. -/
def jsonRoundTripObj : JObj → JObj
  | .nil => .nil
  | .cons k v rest => .cons k (jsonRoundTrip v) (jsonRoundTripObj rest)

end

/-- Rendering `/source/flags` produced by `RegExp.prototype.toString`. -/
def regExpToString (source flags : String) : String :=
  "/" ++ source ++ "/" ++ flags

/-- Truthiness of a dynamic value (objects, arrays and RegExp are truthy;
the empty string and zero are falsy). -/
def truthy : JVal → Bool
  | .str s => !(s == "")
  | .num q => !(q == 0)
  | _ => true

/-- Truthiness of `v.k` (an absent property is `undefined`, hence falsy). -/
def truthyProp (v : JVal) (key : String) : Bool :=
  match getProp v key with
  | some x => truthy x
  | none => false

/-- The guard `cfg.naming && cfg.naming.patterns` used by the export and
load operations. -/
def namingPatternsPresent (v : JVal) : Bool :=
  truthyProp v ("naming") &&
    (match getProp v ("naming") with
     | some nm => truthyProp nm ("patterns")
     | none => false)

/-- One arm of `exportCurrentConfig`: when the original configuration holds
a RegExp at `naming.patterns.key`, overwrite that slot of the export clone
with the `/source/flags` string. -/
def exportPatternKey (config e : JVal) (key : String) : JVal :=
  match getPath config [("naming"), ("patterns"), key] with
  | some (.regex src fl) =>
    setPath e [("naming"), ("patterns"), key] (.str (regExpToString src fl))
  | _ => e

/-- The `exportCurrentConfig()` operation, modelled up to text: the function
clones the configuration through `JSON.parse(JSON.stringify(...))`, replaces
each RegExp-valued naming pattern by its `/source/flags` string and returns
the pretty-printed JSON text of the result.  Serialising to text and parsing
back is the identity on JSON values, so this definition directly produces the
value that `JSON.parse` applied to the exported text yields. -/
def exportCurrentConfig (config : JVal) : JVal :=
  let e := jsonRoundTrip config
  if namingPatternsPresent e then
    exportPatternKey config
      (exportPatternKey config (exportPatternKey config e ("frames")) ("components"))
      ("layers")
  else e

/-- Characters accepted by the flags group `([gimuy]*)` of the stored
pattern encoding. -/
def flagChars : List Char := ['g', 'i', 'm', 'u', 'y']

/-- Characters the dot of `(.*)` matches: anything except line terminators. -/
def dotChar (c : Char) : Bool :=
  !(c == '\n') && !(c == '\r') && !(c == Char.ofNat 0x2028) && !(c == Char.ofNat 0x2029)

/-- Split a character list at its last `'/'`, returning the parts before and
after it. -/
def splitLastSlash : List Char → Option (List Char × List Char)
  | [] => none
  | c :: cs =>
    match splitLastSlash cs with
    | some (pre, post) => some (c :: pre, post)
    | none => if c == '/' then some ([], cs) else none

/-- Matching of a stored pattern string against `/^\/(.*)\/([gimuy]*)$/`
(the decoding step of `loadConfigFromDocument`), returning the captured
source and flags.  The greedy `(.*)` makes the split deterministic: the
match uses the last `'/'` whose suffix consists only of flag characters. -/
def matchSlashEncoding (s : String) : Option (String × String) :=
  match s.data with
  | '/' :: rest =>
    match splitLastSlash rest with
    | some (pre, post) =>
      if pre.all dotChar && post.all (fun c => flagChars.contains c) then
        some (String.mk pre, String.mk post)
      else none
    | none => none
  | _ => none

/-- One arm of the pattern-decoding loop of `loadConfigFromDocument`: when
`parsed.naming.patterns.key` is a string matching the `/source/flags`
shape, rebuild it into a RegExp value via `new RegExp(pattern, flags)`;
otherwise leave `parsed` unchanged.  `rxOk` stands for whether the
platform RegExp constructor accepts the given source and flags: when it
does not, the constructor throws inside the surrounding `try`, modeled as
the `none` outcome. -/
def decodeStoredPattern (rxOk : String → String → Bool) (parsed : JVal)
    (key : String) : Option JVal :=
  match getPath parsed [("naming"), ("patterns"), key] with
  | some (.str s) =>
    match matchSlashEncoding s with
    | some (p, f) =>
      if rxOk p f then some (setPath parsed [("naming"), ("patterns"), key] (.regex p f))
      else none
    | none => some parsed
  | _ => some parsed

/-- The `loadConfigFromDocument()` operation over the parse outcome of the
stored blob: `none` models an absent/empty blob (`if (pluginDataStr)` fails),
`some none` models malformed JSON (`JSON.parse` throws, the catch logs and
the function returns `null`), and `some (some parsed)` is a successful parse,
whose naming patterns are then decoded field by field in source order
(frames, components, layers).  A RegExp-constructor throw in any arm aborts
the `try` block and the function returns `null`. -/
def loadConfigFromDocument (rxOk : String → String → Bool)
    (stored : Option (Option JVal)) : Option JVal :=
  match stored with
  | none => none
  | some none => none
  | some (some parsed) =>
    if namingPatternsPresent parsed then
      match decodeStoredPattern rxOk parsed ("frames") with
      | none => none
      | some p1 =>
        match decodeStoredPattern rxOk p1 ("components") with
        | none => none
        | some p2 =>
          match decodeStoredPattern rxOk p2 ("layers") with
          | none => none
          | some p3 => some p3
    else some parsed

/-! ### Typed configuration model and evaluation engine -/

/-- An executable naming pattern: the `source` and `flags` of the RegExp
literal plus the semantics of its `test` method.  The three default
patterns below carry hand-translated matchers for their literals. -/
structure RegExpV where
  source : String
  flags : String
  test : String → Bool

structure ColorsConfig where
  allowedColors : List String
  tolerance : ℚ

structure TypographyConfig where
  allowedFonts : List String
  textStyles : List String

structure SpacingConfig where
  baseUnit : ℚ
  tolerancePercent : ℚ

structure ComponentsConfig where
  requiredComponents : List (String × List String)
  mustBeInstances : List String

structure NamingPatterns where
  frames : RegExpV
  components : RegExpV
  layers : RegExpV

structure NamingConfig where
  patterns : NamingPatterns

/-- Accessibility section; the source field `minContrastRatio` is modelled
as `minContrast` (the value is read by no checker: the contrast predicate
is stubbed to always pass). -/
structure AccessibilityConfig where
  minContrast : ℚ
  interactiveElementMinSize : ℚ

/-- The `StandardsConfig` interface. -/
structure StandardsConfig where
  colors : ColorsConfig
  typography : TypographyConfig
  spacing : SpacingConfig
  components : ComponentsConfig
  naming : NamingConfig
  accessibility : AccessibilityConfig

def isUpperAZ (c : Char) : Bool := 'A' ≤ c && c ≤ 'Z'

def isLowerAZ (c : Char) : Bool := 'a' ≤ c && c ≤ 'z'

def isDigit09 (c : Char) : Bool := '0' ≤ c && c ≤ '9'

/-- The character class `[a-z0-9-_]` (lowercase letters, digits, a literal
hyphen and an underscore). -/
def layerClassChar (c : Char) : Bool :=
  isLowerAZ c || isDigit09 c || c == '-' || c == '_'

/-- Matcher for the frames pattern `^[A-Z][a-z]+ - [a-z0-9-_]+$`.
Because `[a-z]` never matches a space, the greedy `[a-z]+` run is forced to
be the maximal lowercase run, so the matcher is deterministic. -/
def framesPatternTest (s : String) : Bool :=
  match s.data with
  | c :: rest =>
    isUpperAZ c &&
      (let sp := rest.span isLowerAZ
       decide (sp.1 ≠ []) &&
         (match sp.2 with
          | ' ' :: '-' :: ' ' :: tail => decide (tail ≠ []) && tail.all layerClassChar
          | _ => false))
  | [] => false

/-- Matcher for the components pattern `^[A-Z][a-z]+ \/ [A-Z][a-z]+$`. -/
def componentsPatternTest (s : String) : Bool :=
  match s.data with
  | c :: rest =>
    isUpperAZ c &&
      (let sp := rest.span isLowerAZ
       decide (sp.1 ≠ []) &&
         (match sp.2 with
          | ' ' :: '/' :: ' ' :: u :: tail =>
            isUpperAZ u && decide (tail ≠ []) && tail.all isLowerAZ
          | _ => false))
  | [] => false

/-- Matcher for the layers pattern `^[a-z][a-z0-9-_]+$`. -/
def layersPatternTest (s : String) : Bool :=
  match s.data with
  | c :: rest => isLowerAZ c && decide (rest ≠ []) && rest.all layerClassChar
  | [] => false

/-- The default `naming.patterns.frames` literal. -/
def defaultFramesPattern : RegExpV :=
  ⟨"^[A-Z][a-z]+ - [a-z0-9-_]+$", "", framesPatternTest⟩

/-- The default `naming.patterns.components` literal (its source text keeps
the escaped slash of the literal). -/
def defaultComponentsPattern : RegExpV :=
  ⟨"^[A-Z][a-z]+ \\/ [A-Z][a-z]+$", "", componentsPatternTest⟩

/-- The default `naming.patterns.layers` literal. -/
def defaultLayersPattern : RegExpV :=
  ⟨"^[a-z][a-z0-9-_]+$", "", layersPatternTest⟩

/-- The hardcoded default configuration built in the constructor. -/
def defaultConfig : StandardsConfig where
  colors :=
    ⟨["#1A73E8", "#4285F4", "#34A853", "#FBBC04", "#EA4335", "#F8F9FA", "#202124"], 0⟩
  typography :=
    ⟨["Roboto", "Product Sans", "Google Sans"], ["Heading", "Body", "Caption", "Button"]⟩
  spacing := ⟨8, 5⟩
  components :=
    ⟨[("screen", ["Navigation", "StatusBar"]), ("card", ["Shadow", "Title"])],
     ["Button", "Input", "Checkbox", "Radio", "Toggle", "Dropdown"]⟩
  naming := ⟨⟨defaultFramesPattern, defaultComponentsPattern, defaultLayersPattern⟩⟩
  accessibility := ⟨9/2, 44⟩

/-- An RGB triple with components in the unit interval. -/
structure RGB where
  r : ℚ
  g : ℚ
  b : ℚ

/-- A paint entry of a fills/strokes list. -/
structure Paint where
  type : String
  visible : Bool
  color : RGB

/-- The value of `node.fontName`: a font with a family name, or the mixed
sentinel (a JS symbol). -/
inductive FontNameV where
  | font (family : String)
  | mixed

/-- Non-recursive attributes of a node.  `Option` fields model properties
that may be absent from a node kind (the JS `'prop' in node` test);
`hasWidthHeight` models the presence of the `width`/`height` properties
used by the accessibility size check. -/
structure NodeProps where
  id : String
  name : String
  type : String
  fills : Option (List Paint) := none
  strokes : Option (List Paint) := none
  fontName : Option FontNameV := none
  textStyleId : Option String := none
  x : ℚ := 0
  y : ℚ := 0
  width : ℚ := 0
  height : ℚ := 0
  hasWidthHeight : Bool := false
  layoutMode : Option String := none
  paddingTop : ℚ := 0
  paddingRight : ℚ := 0
  paddingBottom : ℚ := 0
  paddingLeft : ℚ := 0

mutual

/-- A node of the document tree: attributes plus its `children` slot. -/
inductive FigmaNode where
  | mk (props : NodeProps) (children : Children)

/-- The `children` slot: `absent` models a node kind without a `children`
property (the JS `'children' in node` test fails), `present` an ordered
child list. -/
inductive Children where
  | absent
  | present (cs : NodeList)

/-- An ordered list of child nodes. -/
inductive NodeList where
  | nil
  | cons (n : FigmaNode) (rest : NodeList)

end

/-- Building a `NodeList` from a list. -/
def NodeList.ofList : List FigmaNode → NodeList
  | [] => .nil
  | n :: rest => .cons n (NodeList.ofList rest)

def FigmaNode.props : FigmaNode → NodeProps
  | .mk p _ => p

def FigmaNode.children : FigmaNode → Children
  | .mk _ c => c

def FigmaNode.name (n : FigmaNode) : String := n.props.name

def FigmaNode.id (n : FigmaNode) : String := n.props.id

def FigmaNode.type (n : FigmaNode) : String := n.props.type

structure CheckIssue where
  category : String
  message : String
  nodeId : String
deriving DecidableEq, Repr

structure CheckStats where
  nodesChecked : Nat
  issuesFound : Nat
  categoryCounts : List (String × Nat)
deriving DecidableEq, Repr

structure CheckResults where
  passed : Bool
  issues : List CheckIssue
  stats : CheckStats
deriving DecidableEq, Repr

/-- Category-count lookup (`results.stats.categoryCounts[category]`). -/
def lookupCount : List (String × Nat) → String → Option Nat
  | [], _ => none
  | (k, n) :: rest, key => if k == key then some n else lookupCount rest key

/-- Category-count assignment (overwrite or append, insertion order kept). -/
def setCount : List (String × Nat) → String → Nat → List (String × Nat)
  | [], key, n => [(key, n)]
  | (k, m) :: rest, key, n =>
    if k == key then (key, n) :: rest else (k, m) :: setCount rest key n

/-- The `addIssue` helper: append the issue, clear `passed`, bump
`issuesFound`, and bump the per-category count (initialising it to zero
first when the slot is absent or zero, mirroring the falsiness test
`!results.stats.categoryCounts[category]`). -/
def addIssue (results : CheckResults) (category message nodeId : String) :
    CheckResults :=
  let counts0 := results.stats.categoryCounts
  let counts1 :=
    if (lookupCount counts0 category).getD 0 = 0 then setCount counts0 category 0
    else counts0
  { passed := false
    issues := results.issues ++ [⟨category, message, nodeId⟩]
    stats :=
      { nodesChecked := results.stats.nodesChecked
        issuesFound := results.stats.issuesFound + 1
        categoryCounts := setCount counts1 category ((lookupCount counts1 category).getD 0 + 1) } }

/-- The `Math.round` of JS: round half toward positive infinity. -/
def jsRound (q : ℚ) : ℤ := ⌊q + 1 / 2⌋

/-- Lowercase base-16 rendering of a nonnegative integer, with the JS
`toString(16)` sign handling for the (unreachable here) negative case. -/
def intToHex (i : ℤ) : String :=
  if i < 0 then "-" ++ String.mk (Nat.toDigits 16 i.natAbs)
  else String.mk (Nat.toDigits 16 i.toNat)

/-- The inner `toHex` helper of `rgbToHex`: scale a unit-interval channel by
255, round, render in base 16 and zero-pad to two digits. -/
def toHexChannel (value : ℚ) : String :=
  let hex := intToHex (jsRound (value * 255))
  if hex.length = 1 then "0" ++ hex else hex

/-- ASCII uppercasing of one character (the `toUpperCase` call acts on hex
renderings, which are ASCII). -/
def upperCh (c : Char) : Char :=
  if isLowerAZ c then Char.ofNat (c.toNat - 32) else c

/-- ASCII uppercasing of a string. -/
def strUpper (s : String) : String := String.mk (s.data.map upperCh)

/-- The `rgbToHex` helper: `#RRGGBB`, uppercase. -/
def rgbToHex (r g b : ℚ) : String :=
  strUpper ("#" ++ toHexChannel r ++ toHexChannel g ++ toHexChannel b)

/-- The `isColorAllowed` helper. -/
def isColorAllowed (cfg : StandardsConfig) (color : String) : Bool :=
  cfg.colors.allowedColors.contains color

/-- Truncated division of JS: round the quotient toward zero. -/
def ratTrunc (q : ℚ) : ℤ := if 0 ≤ q then ⌊q⌋ else ⌈q⌉

/-- The `%` operator on JS numbers: `a - b * trunc(a / b)`; the result takes
the sign of the dividend.  Exact on rationals, as it is on floats. -/
def jsRem (a b : ℚ) : ℚ := a - b * ratTrunc (a / b)

/-- The `isOnGrid` helper: `remainder = value % baseUnit` is on-grid when
`remainder ≤ tolerance` or `baseUnit - remainder ≤ tolerance`, with
`tolerance = baseUnit * tolerancePercent / 100`. -/
def isOnGrid (cfg : StandardsConfig) (value : ℚ) : Bool :=
  let gridUnit := cfg.spacing.baseUnit
  let tolerance := gridUnit * cfg.spacing.tolerancePercent / 100
  let remainder := jsRem value gridUnit
  decide (remainder ≤ tolerance) || decide (gridUnit - remainder ≤ tolerance)

/-- Prefix test on character lists. -/
def isPrefixCh : List Char → List Char → Bool
  | [], _ => true
  | _ :: _, [] => false
  | a :: as, b :: bs => a == b && isPrefixCh as bs

/-- Infix (contiguous-substring) test on character lists. -/
def isInfixCh (sub s : List Char) : Bool :=
  isPrefixCh sub s ||
    (match s with
     | [] => false
     | _ :: rest => isInfixCh sub rest)

/-- Substring containment, the `String.prototype.includes` test. -/
def strIncludes (s sub : String) : Bool := isInfixCh sub.data s.data

/-- ASCII lowercasing of one character (JS lowercasing is Unicode-aware;
the difference is immaterial for the ASCII keyword comparisons of the
source). -/
def lowerCh (c : Char) : Char :=
  if isUpperAZ c then Char.ofNat (c.toNat + 32) else c

/-- ASCII lowercasing, the `toLowerCase` call. -/
def toLowerStr (s : String) : String := String.mk (s.data.map lowerCh)

/-- The `getFrameType` helper: a name containing `screen` (case-insensitive)
is a screen, one containing `card` is a card, anything else has no type. -/
def getFrameType (name : String) : Option String :=
  let lowerName := toLowerStr name
  if strIncludes lowerName ("screen") then some ("screen")
  else if strIncludes lowerName ("card") then some ("card")
  else none

/-- Splitting a character list at every `'/'` (the `name.split('/')` call:
every separator splits, empty segments are kept). -/
def splitSlash : List Char → List Char → List (List Char)
  | [], acc => [acc.reverse]
  | c :: rest, acc =>
    if c == '/' then acc.reverse :: splitSlash rest [] else splitSlash rest (c :: acc)

/-- Whitespace characters removed by `trim` (the forms that occur in layer
names). -/
def isTrimCh (c : Char) : Bool :=
  c == ' ' || c == '\t' || c == '\n' || c == '\r'

/-- Leading-whitespace removal. -/
def dropLeadingWs : List Char → List Char
  | [] => []
  | c :: rest => if isTrimCh c then dropLeadingWs rest else c :: rest

/-- The `trim` call: strip whitespace from both ends. -/
def jsTrim (s : String) : String :=
  String.mk ((dropLeadingWs (dropLeadingWs s.data).reverse).reverse)

/-- The `getComponentName` helper: the trimmed segment after the last slash,
or the whole name when it holds no slash. -/
def getComponentName (name : String) : String :=
  let parts := splitSlash name.data []
  if parts.length > 1 then jsTrim (String.mk (parts.getLastD []))
  else name

mutual

/-- The `hasComponentNamed` recursive search: does any descendant name in
the subtree below `node` contain `componentName` as a substring. -/
def hasComponentNamed (node : FigmaNode) (componentName : String) : Bool :=
  match node with
  | .mk _ .absent => false
  | .mk _ (.present cs) => hasComponentNamedList cs componentName

/-- Loop of `hasComponentNamed` over a child list. -/
def hasComponentNamedList (cs : NodeList) (componentName : String) : Bool :=
  match cs with
  | .nil => false
  | .cons child rest =>
    strIncludes child.name componentName ||
      (match child.children with
       | .present _ => hasComponentNamed child componentName
       | .absent => false) ||
      hasComponentNamedList rest componentName

end

/-- The first-fill colour of `getNodeColor` (the first paint when it is a
visible solid). -/
def getNodeColor (node : FigmaNode) : Option String :=
  match node.props.fills with
  | some (fill :: _) =>
    if fill.type == "SOLID" && fill.visible then
      some (rgbToHex fill.color.r fill.color.g fill.color.b)
    else none
  | _ => none

/-- The stubbed `hasAdequateContrast` predicate: always passes. -/
def hasAdequateContrast (_color1 _color2 : String) : Bool := true

/-- The `isInteractiveElement` helper: the lowercased name contains one of
the fixed interaction keywords. -/
def isInteractiveElement (node : FigmaNode) : Bool :=
  [("button"), ("link"), ("input"), ("toggle"), ("checkbox"), ("radio")].any
    (fun keyword => strIncludes (toLowerStr node.name) keyword)

/-- The `checkColors` checker: one issue per visible solid fill or stroke
whose hex rendering is not in the allowed palette. -/
def checkColors (cfg : StandardsConfig) (node : FigmaNode) (results : CheckResults) :
    CheckResults :=
  let results :=
    match node.props.fills with
    | some fills =>
      fills.foldl
        (fun r fill =>
          if fill.type == "SOLID" && fill.visible then
            let color := rgbToHex fill.color.r fill.color.g fill.color.b
            if !isColorAllowed cfg color then
              addIssue r ("color")
                ("Non-standard color " ++ color ++ " used in " ++ node.name) node.id
            else r
          else r)
        results
    | none => results
  match node.props.strokes with
  | some strokes =>
    strokes.foldl
      (fun r stroke =>
        if stroke.type == "SOLID" && stroke.visible then
          let color := rgbToHex stroke.color.r stroke.color.g stroke.color.b
          if !isColorAllowed cfg color then
            addIssue r ("color")
              ("Non-standard stroke color " ++ color ++ " used in " ++ node.name) node.id
          else r
        else r)
      results
  | none => results

/-- The synchronous part of the `checkTypography` checker: the font-family
test and the missing-text-style test.  The style-name convention test runs
in a `figma.getStyleByIdAsync(...).then(...)` continuation that appends its
issue only after the synchronous evaluation result has been returned, so it
is not part of the returned value modelled here. -/
def checkTypography (cfg : StandardsConfig) (node : FigmaNode) (results : CheckResults) :
    CheckResults :=
  if node.type == "TEXT" then
    let results :=
      match node.props.fontName with
      | some (.font family) =>
        if !cfg.typography.allowedFonts.contains family then
          addIssue results ("typography")
            ("Non-standard font \"" ++ family ++ "\" used in \"" ++ node.name ++ "\"")
            node.id
        else results
      | some .mixed => results
      | none => results
    let styleTruthy :=
      match node.props.textStyleId with
      | some sid => !(sid == "")
      | none => false
    if !styleTruthy then
      addIssue results ("typography")
        ("Text \"" ++ node.name ++ "\" is not using any text style") node.id
    else results
  else results

/-- The `checkSpacing` checker: for container kinds, the four geometry
values are tested against the grid; a frame with an active layout mode
additionally has its four padding values tested. -/
def checkSpacing (cfg : StandardsConfig) (node : FigmaNode) (results : CheckResults) :
    CheckResults :=
  if node.type == "FRAME" || node.type == "GROUP" || node.type == "COMPONENT"
      || node.type == "INSTANCE" then
    let results :=
      if !isOnGrid cfg node.props.x then
        addIssue results ("spacing")
          (node.name ++ " X position (" ++ toString node.props.x ++ ") is not on grid")
          node.id
      else results
    let results :=
      if !isOnGrid cfg node.props.y then
        addIssue results ("spacing")
          (node.name ++ " Y position (" ++ toString node.props.y ++ ") is not on grid")
          node.id
      else results
    let results :=
      if !isOnGrid cfg node.props.width then
        addIssue results ("spacing")
          (node.name ++ " width (" ++ toString node.props.width ++ ") is not on grid")
          node.id
      else results
    let results :=
      if !isOnGrid cfg node.props.height then
        addIssue results ("spacing")
          (node.name ++ " height (" ++ toString node.props.height ++ ") is not on grid")
          node.id
      else results
    if node.type == "FRAME" then
      match node.props.layoutMode with
      | some mode =>
        if !(mode == "NONE") then
          let results :=
            if !isOnGrid cfg node.props.paddingTop then
              addIssue results ("spacing")
                (node.name ++ " has non-standard top padding (" ++
                  toString node.props.paddingTop ++ ")") node.id
            else results
          let results :=
            if !isOnGrid cfg node.props.paddingRight then
              addIssue results ("spacing")
                (node.name ++ " has non-standard right padding (" ++
                  toString node.props.paddingRight ++ ")") node.id
            else results
          let results :=
            if !isOnGrid cfg node.props.paddingBottom then
              addIssue results ("spacing")
                (node.name ++ " has non-standard bottom padding (" ++
                  toString node.props.paddingBottom ++ ")") node.id
            else results
          if !isOnGrid cfg node.props.paddingLeft then
            addIssue results ("spacing")
              (node.name ++ " has non-standard left padding (" ++
                toString node.props.paddingLeft ++ ")") node.id
          else results
        else results
      | none => results
    else results
  else results

/-- Record lookup `requiredComponents[frameType]` (a JS object lookup). -/
def lookupRequired : List (String × List String) → String → Option (List String)
  | [], _ => none
  | (k, v) :: rest, key => if k == key then some v else lookupRequired rest key

/-- The `checkComponents` checker: a frame whose derived type has required
components configured gets one issue per required name absent from its
subtree; independently, a node whose derived component name is in
`mustBeInstances` but whose kind is neither component nor instance gets an
issue. -/
def checkComponents (cfg : StandardsConfig) (node : FigmaNode) (results : CheckResults) :
    CheckResults :=
  let results :=
    if node.type == "FRAME" then
      match getFrameType node.name with
      | some frameType =>
        match lookupRequired cfg.components.requiredComponents frameType with
        | some required =>
          required.foldl
            (fun r requiredComponent =>
              let hasComponent :=
                match node.children with
                | .present _ => hasComponentNamed node requiredComponent
                | .absent => false
              if !hasComponent then
                addIssue r ("components")
                  (node.name ++ " is missing required component: " ++ requiredComponent)
                  node.id
              else r)
            results
        | none => results
      | none => results
    else results
  let componentName := getComponentName node.name
  if !(componentName == "") && cfg.components.mustBeInstances.contains componentName then
    if !(node.type == "INSTANCE") && !(node.type == "COMPONENT") then
      addIssue results ("components") (node.name ++ " should be a component instance")
        node.id
    else results
  else results

/-- The `checkNaming` checker: frames are tested against the frame pattern,
components and instances against the component pattern, anything else
against the layer pattern; at most one naming issue per node. -/
def checkNaming (cfg : StandardsConfig) (node : FigmaNode) (results : CheckResults) :
    CheckResults :=
  let results :=
    if node.type == "FRAME" then
      if !cfg.naming.patterns.frames.test node.name then
        addIssue results ("naming")
          ("Frame \"" ++ node.name ++ "\" doesn\x27t follow naming convention") node.id
      else results
    else results
  let results :=
    if node.type == "COMPONENT" || node.type == "INSTANCE" then
      if !cfg.naming.patterns.components.test node.name then
        addIssue results ("naming")
          ("Component \"" ++ node.name ++ "\" doesn\x27t follow naming convention") node.id
      else results
    else results
  if !(node.type == "FRAME") && !(node.type == "COMPONENT")
      && !(node.type == "INSTANCE") then
    if !cfg.naming.patterns.layers.test node.name then
      addIssue results ("naming")
        ("Layer \"" ++ node.name ++ "\" doesn\x27t follow naming convention") node.id
    else results
  else results

/-- The `checkAccessibility` checker: the contrast branch (whose predicate
is stubbed to pass) and the interactive-element minimum-size test. -/
def checkAccessibility (cfg : StandardsConfig) (node : FigmaNode) (results : CheckResults) :
    CheckResults :=
  let results :=
    if node.type == "TEXT" && node.props.fills.isSome then
      match getNodeColor node with
      | some textColor =>
        if !hasAdequateContrast textColor ("#FFFFFF") then
          addIssue results ("accessibility")
            ("Text \"" ++ node.name ++ "\" has insufficient contrast") node.id
        else results
      | none => results
    else results
  if isInteractiveElement node && node.props.hasWidthHeight then
    if decide (node.props.width < cfg.accessibility.interactiveElementMinSize)
        || decide (node.props.height < cfg.accessibility.interactiveElementMinSize) then
      addIssue results ("accessibility")
        ("Interactive element \"" ++ node.name ++ "\" (" ++ toString node.props.width ++
          "x" ++ toString node.props.height ++ ") is too small for touch targets")
        node.id
    else results
  else results

/-- The per-node body of `processNode`: bump `nodesChecked`, then run the
six checkers in their fixed order. -/
def checkOneNode (cfg : StandardsConfig) (node : FigmaNode) (results : CheckResults) :
    CheckResults :=
  let results :=
    { results with
      stats := { results.stats with nodesChecked := results.stats.nodesChecked + 1 } }
  let results := checkColors cfg node results
  let results := checkTypography cfg node results
  let results := checkSpacing cfg node results
  let results := checkComponents cfg node results
  let results := checkNaming cfg node results
  let results := checkAccessibility cfg node results
  results

mutual

/-- The `processNode` traversal (node first, the structurally decreasing
argument): check the node itself, then recurse into the children (document
order) when this is a deep check and the node has a `children` property. -/
def processNode : FigmaNode → StandardsConfig → CheckResults → Bool → CheckResults
  | .mk p copt, cfg, results, isDeepCheck =>
    let results := checkOneNode cfg (.mk p copt) results
    if isDeepCheck then
      match copt with
      | .present cs => processChildren cs cfg results isDeepCheck
      | .absent => results
    else results

/-- Recursion of `processNode` over a child list. -/
def processChildren : NodeList → StandardsConfig → CheckResults → Bool → CheckResults
  | .nil, _, results, _ => results
  | .cons child rest, cfg, results, isDeepCheck =>
    processChildren rest cfg (processNode child cfg results isDeepCheck) isDeepCheck

end

/-- The `runAllChecks` entry point: a fresh passing result, then the
traversal. -/
def runAllChecks (cfg : StandardsConfig) (node : FigmaNode) (isDeepCheck : Bool) :
    CheckResults :=
  processNode node cfg ⟨true, [], ⟨0, 0, []⟩⟩ isDeepCheck

mutual

/-- Size of the subtree rooted at a node (the node itself plus all
descendants reachable through `children`). -/
def nodeSize : FigmaNode → Nat
  | .mk _ .absent => 1
  | .mk _ (.present cs) => 1 + nodeSizeList cs

/-- Total size of a forest. -/
def nodeSizeList : NodeList → Nat
  | .nil => 0
  | .cons c rest => nodeSize c + nodeSizeList rest

end

/-- List of channel strings used when building a `JVal` array of strings. -/
def strJArr (l : List String) : JArr :=
  JArr.ofList (l.map .str)

/-- The `requiredComponents` record as a dynamic object. -/
def requiredToJObj : List (String × List String) → JObj
  | [] => .nil
  | (k, vs) :: rest => .cons k (.arr (strJArr vs)) (requiredToJObj rest)

/-- The in-memory JS object holding a typed configuration: the exact field
skeleton of the `StandardsConfig` object literal, with RegExp values in the
three naming-pattern slots.  The accessibility field keeps its source
spelling as an object key. -/
def configToJVal (c : StandardsConfig) : JVal :=
  .obj (.ofList
    [("colors", .obj (.ofList
        [("allowedColors", .arr (strJArr c.colors.allowedColors)),
         ("tolerance", .num c.colors.tolerance)])),
     ("typography", .obj (.ofList
        [("allowedFonts", .arr (strJArr c.typography.allowedFonts)),
         ("textStyles", .arr (strJArr c.typography.textStyles))])),
     ("spacing", .obj (.ofList
        [("baseUnit", .num c.spacing.baseUnit),
         ("tolerancePercent", .num c.spacing.tolerancePercent)])),
     ("components", .obj (.ofList
        [("requiredComponents", .obj (requiredToJObj c.components.requiredComponents)),
         ("mustBeInstances", .arr (strJArr c.components.mustBeInstances))])),
     ("naming", .obj (.ofList
        [("patterns", .obj (.ofList
            [("frames",
              .regex c.naming.patterns.frames.source c.naming.patterns.frames.flags),
             ("components",
              .regex c.naming.patterns.components.source c.naming.patterns.components.flags),
             ("layers",
              .regex c.naming.patterns.layers.source c.naming.patterns.layers.flags)]))])),
     ("accessibility", .obj (.ofList
        [("minContrastRatio", .num c.accessibility.minContrast),
         ("interactiveElementMinSize", .num c.accessibility.interactiveElementMinSize)]))])

/-- String encoding of a pattern as produced by export/save. -/
def regExpEncoded (r : RegExpV) : JVal :=
  .str (regExpToString r.source r.flags)

/-- The same object as `configToJVal`, except that each naming-pattern slot
holds its `/source/flags` string encoding instead of a RegExp value. -/
def configToJValExported (c : StandardsConfig) : JVal :=
  .obj (.ofList
    [("colors", .obj (.ofList
        [("allowedColors", .arr (strJArr c.colors.allowedColors)),
         ("tolerance", .num c.colors.tolerance)])),
     ("typography", .obj (.ofList
        [("allowedFonts", .arr (strJArr c.typography.allowedFonts)),
         ("textStyles", .arr (strJArr c.typography.textStyles))])),
     ("spacing", .obj (.ofList
        [("baseUnit", .num c.spacing.baseUnit),
         ("tolerancePercent", .num c.spacing.tolerancePercent)])),
     ("components", .obj (.ofList
        [("requiredComponents", .obj (requiredToJObj c.components.requiredComponents)),
         ("mustBeInstances", .arr (strJArr c.components.mustBeInstances))])),
     ("naming", .obj (.ofList
        [("patterns", .obj (.ofList
            [("frames", regExpEncoded c.naming.patterns.frames),
             ("components", regExpEncoded c.naming.patterns.components),
             ("layers", regExpEncoded c.naming.patterns.layers)]))])),
     ("accessibility", .obj (.ofList
        [("minContrastRatio", .num c.accessibility.minContrast),
         ("interactiveElementMinSize", .num c.accessibility.interactiveElementMinSize)]))])

/-- The default configuration as the dynamic object the plugin holds. -/
def defaultConfigJ : JVal := configToJVal defaultConfig


/-! ### Shared lemmas for the grid claims -/

/-- Configuration used by the zero-tolerance grid claims: the default
configuration with `tolerancePercent` set to zero. -/
def zeroTolConfig : StandardsConfig :=
  { defaultConfig with spacing := ⟨8, 0⟩ }

/-- At a nonnegative dividend the JS remainder is the floor-based one. -/
theorem jsRem_nonneg_eq (v b : ℚ) (hv : 0 ≤ v) (hb : 0 < b) :
    jsRem v b = v - b * ⌊v / b⌋ := by
  have hq : 0 ≤ v / b := div_nonneg hv hb.le
  simp [jsRem, ratTrunc, hq]

/-- At a nonnegative dividend the JS remainder lies in `[0, b)`. -/
theorem jsRem_nonneg_bounds (v b : ℚ) (hv : 0 ≤ v) (hb : 0 < b) :
    0 ≤ jsRem v b ∧ jsRem v b < b := by
  rw [jsRem_nonneg_eq v b hv hb]
  have hfr : v - b * ⌊v / b⌋ = b * Int.fract (v / b) := by
    rw [Int.fract]
    field_simp
  constructor
  · rw [hfr]
    exact mul_nonneg hb.le (Int.fract_nonneg _)
  · rw [hfr]
    calc b * Int.fract (v / b) < b * 1 := by
          exact mul_lt_mul_of_pos_left (Int.fract_lt_one _) hb
      _ = b := mul_one b

/-- C3 counterexample: at `tolerancePercent = 0` and `baseUnit = 8` the
value `-4` is not a multiple of the base unit (neither in the JS-remainder
sense nor as an integer multiple), yet `isOnGrid` accepts it: the JS
remainder of a negative value is negative, so `remainder ≤ 0` holds. -/
theorem c3_zero_tolerance_counterexample :
    isOnGrid zeroTolConfig (-4) = true ∧ jsRem (-4) 8 ≠ 0 ∧
      ¬ ∃ k : ℤ, ((-4 : ℚ) = k * 8) := by
  refine ⟨by with_unfolding_all rfl, ?_, ?_⟩
  · have h : jsRem (-4) 8 = -4 := by with_unfolding_all rfl
    rw [h]; norm_num
  · rintro ⟨k, hk⟩
    have h8 : (-4 : ℤ) = k * 8 := by exact_mod_cast hk
    omega

/-- C3 (amended): with `tolerancePercent = 0` and a positive `baseUnit`,
`isOnGrid v` holds for a nonnegative `v` exactly when `v` is an integer
multiple of `baseUnit`; for every negative `v` the test is vacuously true,
because the JS remainder takes the sign of the dividend and the
`remainder ≤ tolerance` disjunct then always fires. -/
theorem c3_zero_tolerance_amended (cfg : StandardsConfig) (v : ℚ)
    (htp : cfg.spacing.tolerancePercent = 0) (hb : 0 < cfg.spacing.baseUnit) :
    (0 ≤ v → (isOnGrid cfg v = true ↔ ∃ k : ℤ, v = k * cfg.spacing.baseUnit)) ∧
    (v < 0 → isOnGrid cfg v = true) := by
  set b := cfg.spacing.baseUnit with hbdef
  have htol : b * cfg.spacing.tolerancePercent / 100 = 0 := by
    rw [htp]; ring
  constructor
  · intro hv
    obtain ⟨hr0, hrb⟩ := jsRem_nonneg_bounds v b hv hb
    simp only [isOnGrid, htol, ← hbdef, Bool.or_eq_true, decide_eq_true_eq]
    constructor
    · rintro (h | h)
      · have hrem : jsRem v b = 0 := le_antisymm h hr0
        rw [jsRem_nonneg_eq v b hv hb] at hrem
        exact ⟨⌊v / b⌋, by linarith⟩
      · linarith
    · rintro ⟨k, hk⟩
      left
      have hdiv : v / b = (k : ℚ) := by
        rw [hk]; field_simp
      rw [jsRem_nonneg_eq v b hv hb, hdiv, Int.floor_intCast, hk]
      have hz : (k : ℚ) * b - b * k = 0 := by ring
      linarith
  · intro hv
    have hq : ¬ (0 ≤ v / b) := by
      intro h
      have hnn := mul_nonneg h hb.le
      rw [div_mul_cancel₀ v hb.ne.symm] at hnn
      linarith
    have hle : jsRem v b ≤ 0 := by
      rw [jsRem, ratTrunc, if_neg hq]
      have hceil : (v / b : ℚ) ≤ (⌈v / b⌉ : ℚ) := Int.le_ceil _
      have hvb : v ≤ b * ⌈v / b⌉ := by
        calc v = b * (v / b) := by field_simp
          _ ≤ b * ⌈v / b⌉ := mul_le_mul_of_nonneg_left hceil hb.le
      linarith
    simp only [isOnGrid, htol, ← hbdef, Bool.or_eq_true, decide_eq_true_eq]
    left; exact hle

/-- C3 witness: the amended statement applied at the multiple `16`. -/
theorem c3_zero_tolerance_witness : isOnGrid zeroTolConfig 16 = true :=
  ((c3_zero_tolerance_amended zeroTolConfig 16 rfl
      (by norm_num : (0 : ℚ) < 8)).1 (by norm_num)).2
    ⟨2, by norm_num [zeroTolConfig]⟩

/-- C4 counterexample: under the default configuration (`baseUnit = 8`,
`tolerancePercent = 5`), `isOnGrid` accepts `-4` (negative JS remainder)
but rejects `-4 + 8 = 4`, so the grid test is not periodic. -/
theorem c4_periodicity_counterexample :
    ¬ (isOnGrid defaultConfig (-4)
        = isOnGrid defaultConfig ((-4) + defaultConfig.spacing.baseUnit)) := by
  have h1 : isOnGrid defaultConfig (-4) = true := by with_unfolding_all rfl
  have h2 : isOnGrid defaultConfig ((-4) + defaultConfig.spacing.baseUnit) = false := by
    with_unfolding_all rfl
  rw [h1, h2]; simp

/-- C4 (amended): with a positive `baseUnit`, `isOnGrid` is periodic with
period `baseUnit` on the nonnegative values: for `0 ≤ v`,
`isOnGrid v = isOnGrid (v + baseUnit)`.  (The counterexample above shows
periodicity fails across zero for negative values.) -/
theorem c4_periodicity_amended (cfg : StandardsConfig) (v : ℚ)
    (hb : 0 < cfg.spacing.baseUnit) (hv : 0 ≤ v) :
    isOnGrid cfg v = isOnGrid cfg (v + cfg.spacing.baseUnit) := by
  set b := cfg.spacing.baseUnit with hbdef
  have hrem : jsRem (v + b) b = jsRem v b := by
    have h1 : (v + b) / b = v / b + 1 := by field_simp
    rw [jsRem_nonneg_eq v b hv hb, jsRem_nonneg_eq (v + b) b (by linarith) hb, h1,
      Int.floor_add_one]
    push_cast
    ring
  simp only [isOnGrid, ← hbdef, hrem]

/-- C4 witness: the amended statement applied at `v = 0` under the default
configuration. -/
theorem c4_periodicity_witness :
    isOnGrid defaultConfig 0
      = isOnGrid defaultConfig (0 + defaultConfig.spacing.baseUnit) :=
  c4_periodicity_amended defaultConfig 0 (by norm_num : (0 : ℚ) < 8) le_rfl


/-- A partial update carrying the string `[`, which is not a valid regular
expression, in the frames naming-pattern slot (as the manual JSON import
path of the editor produces). -/
def badPatternPatch : JVal :=
  .obj (.cons ("naming") (.obj (.cons ("patterns")
    (.obj (.cons ("frames") (.str ("[")) .nil)) .nil)) .nil)

/-- C2 counterexample: `updateConfig` applies the update carrying the
non-compiling pattern string `[` verbatim — the live configuration changes
and now holds the invalid pattern; nothing rejects it at the point of
entry. -/
theorem c2_invalid_pattern_counterexample :
    getPath (updateConfig defaultConfigJ badPatternPatch)
      [("naming"), ("patterns"), ("frames")] = some (.str ("[")) ∧
    updateConfig defaultConfigJ badPatternPatch ≠ defaultConfigJ := by
  constructor
  · with_unfolding_all rfl
  · intro h
    have hl : getPath (updateConfig defaultConfigJ badPatternPatch)
        [("naming"), ("patterns"), ("frames")] = some (.str ("[")) := by
      with_unfolding_all rfl
    have hr : getPath defaultConfigJ [("naming"), ("patterns"), ("frames")]
        = some (.regex ("^[A-Z][a-z]+ - [a-z0-9-_]+$") ("")) := by
      with_unfolding_all rfl
    rw [h, hr] at hl
    simp at hl

/-- C2 (amended): `updateConfig` itself performs no pattern validation —
whatever string arrives in a naming-pattern slot of the partial (via the
manual JSON import path, for instance) is deep-merged verbatim into the
live configuration.  Only the dedicated per-field pattern editors of the
UI validate with `new RegExp` in a `try`/`catch` before sending an
update. -/
theorem c2_no_validation_amended (c : StandardsConfig) (s : String) :
    getPath (updateConfig (configToJVal c)
        (.obj (.cons ("naming") (.obj (.cons ("patterns")
          (.obj (.cons ("frames") (.str s) .nil)) .nil)) .nil)))
      [("naming"), ("patterns"), ("frames")] = some (.str s) := by
  with_unfolding_all rfl

/-- A partial update carrying a RegExp value in the frames naming-pattern
slot (as the pattern form fields of the editor produce). -/
def regexPatternPatch : JVal :=
  .obj (.cons ("naming") (.obj (.cons ("patterns")
    (.obj (.cons ("frames") (.regex ("^x$") ("")) .nil)) .nil)) .nil)

/-- C5 counterexample: a RegExp value in the partial does not replace the
current pattern wholesale.  `typeof` of a RegExp is `'object'`, so
`deepMerge` recurses into it as an object; a RegExp has no own enumerable
keys, and the merge of the two RegExp values collapses to the empty plain
object — neither the old nor the new pattern. -/
theorem c5_deep_merge_counterexample :
    getPath (updateConfig defaultConfigJ regexPatternPatch)
      [("naming"), ("patterns"), ("frames")] = some (.obj .nil) ∧
    getPath (updateConfig defaultConfigJ regexPatternPatch)
      [("naming"), ("patterns"), ("frames")] ≠ some (.regex ("^x$") ("")) := by
  constructor
  · with_unfolding_all rfl
  · intro h
    have hl : getPath (updateConfig defaultConfigJ regexPatternPatch)
        [("naming"), ("patterns"), ("frames")] = some (.obj .nil) := by
      with_unfolding_all rfl
    rw [hl] at h
    simp at h

/-- C5 (amended): the deep merge of `update` merges plain-object fields
key-by-key recursively and replaces arrays, strings and numbers outright;
but a regex value is itself treated as an object: at an existing key the
two regexes are merged into an empty plain object (losing the pattern),
and only at a key absent from the target is the partial regex copied
wholesale.  In order, the five conjuncts show: a number leaf replaced
inside a recursive object merge with the sibling array and the sibling
section untouched; an array replaced outright; a string replaced outright;
a regex at an existing key collapsing to `{}`; a regex at a fresh key
copied. -/
theorem c5_deep_merge_amended :
    (∀ (c : StandardsConfig) (q : ℚ),
      getPath (updateConfig (configToJVal c)
          (.obj (.cons ("colors") (.obj (.cons ("tolerance") (.num q) .nil)) .nil)))
        [("colors"), ("tolerance")] = some (.num q) ∧
      getPath (updateConfig (configToJVal c)
          (.obj (.cons ("colors") (.obj (.cons ("tolerance") (.num q) .nil)) .nil)))
        [("colors"), ("allowedColors")] = some (.arr (strJArr c.colors.allowedColors)) ∧
      getProp (updateConfig (configToJVal c)
          (.obj (.cons ("colors") (.obj (.cons ("tolerance") (.num q) .nil)) .nil)))
        ("typography") = getProp (configToJVal c) ("typography")) ∧
    (∀ (c : StandardsConfig) (xs : JArr),
      getPath (updateConfig (configToJVal c)
          (.obj (.cons ("colors") (.obj (.cons ("allowedColors") (.arr xs) .nil)) .nil)))
        [("colors"), ("allowedColors")] = some (.arr xs)) ∧
    (∀ (c : StandardsConfig) (s : String),
      getPath (updateConfig (configToJVal c)
          (.obj (.cons ("spacing") (.obj (.cons ("baseUnit") (.str s) .nil)) .nil)))
        [("spacing"), ("baseUnit")] = some (.str s)) ∧
    (∀ (c : StandardsConfig) (src fl : String),
      getPath (updateConfig (configToJVal c)
          (.obj (.cons ("naming") (.obj (.cons ("patterns")
            (.obj (.cons ("frames") (.regex src fl) .nil)) .nil)) .nil)))
        [("naming"), ("patterns"), ("frames")] = some (.obj .nil)) ∧
    (∀ (c : StandardsConfig) (src fl : String),
      getProp (updateConfig (configToJVal c)
          (.obj (.cons ("extraPattern") (.regex src fl) .nil)))
        ("extraPattern") = some (.regex src fl)) := by
  refine ⟨fun c q => ⟨?_, ?_, ?_⟩, fun c xs => ?_, fun c s => ?_, fun c src fl => ?_,
    fun c src fl => ?_⟩ <;> with_unfolding_all rfl


/-! ### Lemmas for the export/import round-trip claim -/

/-- A string array is a fixed point of the JSON clone. -/
theorem rt_strJArr (l : List String) : jsonRoundTripArr (strJArr l) = strJArr l := by
  induction l with
  | nil => rfl
  | cons s rest ih =>
    simp [strJArr, List.map, JArr.ofList, jsonRoundTripArr, jsonRoundTrip] at ih ⊢
    exact ih

/-- The requiredComponents record is a fixed point of the JSON clone. -/
theorem rt_required (rc : List (String × List String)) :
    jsonRoundTripObj (requiredToJObj rc) = requiredToJObj rc := by
  induction rc with
  | nil => rfl
  | cons kv rest ih =>
    simp [requiredToJObj, jsonRoundTripObj, jsonRoundTrip, rt_strJArr, ih]

/-- Assigning to a key the value it already holds leaves the object
unchanged. -/
theorem setField_lookup_self : ∀ (fs : JObj) (k : String) (v : JVal),
    lookupField fs k = some v → setField fs k v = fs
  | .nil, k, v, h => by simp [lookupField] at h
  | .cons k0 w rest, k, v, h => by
    by_cases hk : k0 == k
    · have hkk : k0 = k := by simpa using hk
      rw [lookupField, if_pos hk] at h
      obtain rfl : w = v := by simpa using h
      simp [setField, hk, hkk]
    · rw [lookupField, if_neg (by simpa using hk)] at h
      simp [setField, hk, setField_lookup_self rest k v h]

/-- Under key uniqueness, each record entry is what lookup finds. -/
theorem lookup_requiredToJObj (rc : List (String × List String))
    (hnd : (rc.map Prod.fst).Nodup) :
    ∀ kv ∈ rc, lookupField (requiredToJObj rc) kv.1 = some (.arr (strJArr kv.2)) := by
  induction rc with
  | nil => intro kv h; simp at h
  | cons hd rest ih =>
    intro kv hkv
    rcases List.mem_cons.mp hkv with hh | ht
    · subst hh
      simp [requiredToJObj, lookupField]
    · have hne : hd.1 ≠ kv.1 := by
        intro he
        have hm : kv.1 ∈ rest.map Prod.fst := List.mem_map_of_mem Prod.fst ht
        rw [← he] at hm
        exact (List.nodup_cons.mp hnd).1 hm
      have hb : (hd.1 == kv.1) = false := by simpa using hne
      simp only [requiredToJObj, lookupField, hb, if_false]
      exact ih (List.nodup_cons.mp hnd).2 kv ht

/-- Merging the requiredComponents record onto an output that already holds
each of its entries (all array-valued, hence assigned outright) leaves the
output unchanged. -/
theorem mergeFields_requiredSelf (src : List (String × List String)) (output : JObj)
    (t : JVal)
    (h : ∀ kv ∈ src, lookupField output kv.1 = some (.arr (strJArr kv.2))) :
    mergeFields (requiredToJObj src) output t = output := by
  induction src generalizing output with
  | nil => rfl
  | cons kv rest ih =>
    have hset : setField output kv.1 (.arr (strJArr kv.2)) = output :=
      setField_lookup_self _ _ _ (h kv (List.mem_cons_self _ _))
    simp only [requiredToJObj, mergeFields, isObject, hset]
    exact ih output (fun kv2 h2 => h kv2 (List.mem_cons_of_mem _ h2))

/-- C1 counterexample: under the default configuration, exporting and then
applying `update` to the parsed export does not reproduce the
configuration — the frames naming pattern comes back as the plain string
`/^[A-Z][a-z]+ - [a-z0-9-_]+$/` (its encoding) instead of an executable
pattern, because `updateConfig` never decodes pattern strings. -/
theorem c1_export_update_counterexample :
    updateConfig defaultConfigJ (exportCurrentConfig defaultConfigJ) ≠ defaultConfigJ ∧
    getPath (updateConfig defaultConfigJ (exportCurrentConfig defaultConfigJ))
      [("naming"), ("patterns"), ("frames")]
      = some (.str ("/^[A-Z][a-z]+ - [a-z0-9-_]+$/")) := by
  constructor
  · intro h
    have hl : getPath (updateConfig defaultConfigJ (exportCurrentConfig defaultConfigJ))
        [("naming"), ("patterns"), ("frames")]
        = some (.str ("/^[A-Z][a-z]+ - [a-z0-9-_]+$/")) := by
      with_unfolding_all rfl
    have hr : getPath defaultConfigJ [("naming"), ("patterns"), ("frames")]
        = some (.regex ("^[A-Z][a-z]+ - [a-z0-9-_]+$") ("")) := by
      with_unfolding_all rfl
    rw [h, hr] at hl
    simp at hl
  · with_unfolding_all rfl

/-- C1 (amended): for every configuration (whose requiredComponents keys
are unique, as JS object keys are), export followed by `update` with the
parsed export reproduces every field except the three naming patterns,
each of which becomes its `/source/flags` string encoding rather than an
executable pattern. -/
theorem c1_export_update_amended (c : StandardsConfig)
    (hnd : (c.components.requiredComponents.map Prod.fst).Nodup) :
    updateConfig (configToJVal c) (exportCurrentConfig (configToJVal c))
      = configToJValExported c := by
  have hexp : exportCurrentConfig (configToJVal c) = configToJValExported c := by
    simp [exportCurrentConfig, configToJVal, configToJValExported, jsonRoundTrip,
      jsonRoundTripObj, jsonRoundTripArr, rt_strJArr, rt_required, JObj.ofList,
      namingPatternsPresent, truthyProp, getProp, lookupField, truthy,
      exportPatternKey, getPath, setPath, setField, regExpEncoded, regExpToString]
  rw [hexp]
  have hrc := mergeFields_requiredSelf c.components.requiredComponents
    (requiredToJObj c.components.requiredComponents)
  simp [updateConfig, deepMerge, deepMergeSrc, mergeFields, configToJVal,
    configToJValExported, JObj.ofList, isObject, hasKey, lookupField, getPropD, getProp,
    spreadFields, setField, regExpEncoded, regExpToString,
    hrc _ (lookup_requiredToJObj c.components.requiredComponents hnd)]

/-- C1 witness: the amended statement applied at the default
configuration. -/
theorem c1_export_update_witness :
    updateConfig (configToJVal defaultConfig)
        (exportCurrentConfig (configToJVal defaultConfig))
      = configToJValExported defaultConfig :=
  c1_export_update_amended defaultConfig (by decide)


/-- A stored configuration blob in the shape the save operation writes
(the default configuration with all three naming patterns string-encoded),
except that the frames slot holds the given string. -/
def storedBlobWith (s : String) : JVal :=
  setPath (configToJValExported defaultConfig) [("naming"), ("patterns"), ("frames")]
    (.str s)

/-- C6 counterexample: a stored blob whose frames pattern slot holds the
string `hello` — valid JSON, but not a decodable `/source/flags` pattern
encoding — is not rejected: the load returns a configuration (not
"not found") that still carries the raw non-executable string `hello` in
the pattern slot.  The RegExp constructor is only consulted on the two
other stored patterns of the blob, which are the valid default encodings
the platform accepts, so the always-succeeding constructor instance
agrees with the platform on every input this load consults; `hello` never
reaches the constructor because its shape match fails first. -/
theorem c6_load_malformed_counterexample :
    loadConfigFromDocument (fun _ _ => true) (some (some (storedBlobWith ("hello")))) ≠ none ∧
    (loadConfigFromDocument (fun _ _ => true) (some (some (storedBlobWith ("hello"))))).bind
      (fun cfg => getPath cfg [("naming"), ("patterns"), ("frames")])
      = some (.str ("hello")) := by
  have hs : (loadConfigFromDocument (fun _ _ => true)
      (some (some (storedBlobWith ("hello"))))).isSome = true := by
    with_unfolding_all rfl
  constructor
  · intro h
    rw [h] at hs
    simp at hs
  · with_unfolding_all rfl

/-- C6 (amended): over every behavior `rxOk` of the platform RegExp
constructor, loading fails soft to "not found" on an absent blob and on
malformed JSON; a pattern string in `/source/flags` shape whose source the
constructor accepts is decoded back into a RegExp value; a shape-matching
string whose source the constructor rejects makes the constructor throw
into the catch and the load return "not found"; but a pattern string not
matching the shape at all is left in the returned configuration as a plain
non-executable string rather than causing the load to return "not found".
The third and fourth conjuncts assume the constructor accepts the blob's
two other stored patterns (the valid default encodings), as the platform
does. -/
theorem c6_load_failsoft_amended :
    (∀ rxOk : String → String → Bool, loadConfigFromDocument rxOk none = none) ∧
    (∀ rxOk : String → String → Bool, loadConfigFromDocument rxOk (some none) = none) ∧
    (∀ (rxOk : String → String → Bool) (s : String),
      rxOk ("^[A-Z][a-z]+ \\/ [A-Z][a-z]+$") ("") = true →
      rxOk ("^[a-z][a-z0-9-_]+$") ("") = true →
      matchSlashEncoding s = none →
      (loadConfigFromDocument rxOk (some (some (storedBlobWith s)))).bind
        (fun cfg => getPath cfg [("naming"), ("patterns"), ("frames")])
        = some (.str s)) ∧
    (∀ (rxOk : String → String → Bool) (s p f : String),
      rxOk ("^[A-Z][a-z]+ \\/ [A-Z][a-z]+$") ("") = true →
      rxOk ("^[a-z][a-z0-9-_]+$") ("") = true →
      matchSlashEncoding s = some (p, f) → rxOk p f = true →
      (loadConfigFromDocument rxOk (some (some (storedBlobWith s)))).bind
        (fun cfg => getPath cfg [("naming"), ("patterns"), ("frames")])
        = some (.regex p f)) ∧
    (∀ (rxOk : String → String → Bool) (s p f : String),
      matchSlashEncoding s = some (p, f) → rxOk p f = false →
      loadConfigFromDocument rxOk (some (some (storedBlobWith s))) = none) := by
  have hcomp : matchSlashEncoding ("/^[A-Z][a-z]+ \\/ [A-Z][a-z]+$/")
      = some ("^[A-Z][a-z]+ \\/ [A-Z][a-z]+$", "") := by with_unfolding_all rfl
  have hlay : matchSlashEncoding ("/^[a-z][a-z0-9-_]+$/")
      = some ("^[a-z][a-z0-9-_]+$", "") := by with_unfolding_all rfl
  refine ⟨fun _ => rfl, fun _ => rfl, ?_, ?_, ?_⟩
  · intro rxOk s hc hl h
    simp [loadConfigFromDocument, storedBlobWith, configToJValExported, defaultConfig,
      defaultFramesPattern, defaultComponentsPattern, defaultLayersPattern, regExpEncoded,
      regExpToString, JObj.ofList, setPath, lookupField, setField, namingPatternsPresent,
      truthyProp, truthy, getProp, getPath, decodeStoredPattern, h, hcomp, hlay, hc, hl,
      strJArr, requiredToJObj, JArr.ofList]
  · intro rxOk s p f hc hl h hr
    simp [loadConfigFromDocument, storedBlobWith, configToJValExported, defaultConfig,
      defaultFramesPattern, defaultComponentsPattern, defaultLayersPattern, regExpEncoded,
      regExpToString, JObj.ofList, setPath, lookupField, setField, namingPatternsPresent,
      truthyProp, truthy, getProp, getPath, decodeStoredPattern, h, hcomp, hlay, hc, hl, hr,
      strJArr, requiredToJObj, JArr.ofList]
  · intro rxOk s p f h hr
    simp [loadConfigFromDocument, storedBlobWith, configToJValExported, defaultConfig,
      defaultFramesPattern, defaultComponentsPattern, defaultLayersPattern, regExpEncoded,
      regExpToString, JObj.ofList, setPath, lookupField, setField, namingPatternsPresent,
      truthyProp, truthy, getProp, getPath, decodeStoredPattern, h, hr,
      strJArr, requiredToJObj, JArr.ofList]

/-- C6 witness: the amended statement applied to the non-decodable string
`hello`, to the decodable valid encoding `/abc/g`, and to the
shape-matching encoding `/[/` whose source `[` the RegExp constructor
rejects (modeled by the always-failing `rxOk`), making the load return
"not found". -/
theorem c6_load_failsoft_witness :
    ((loadConfigFromDocument (fun _ _ => true)
        (some (some (storedBlobWith ("hello"))))).bind
      (fun cfg => getPath cfg [("naming"), ("patterns"), ("frames")])
      = some (.str ("hello"))) ∧
    ((loadConfigFromDocument (fun _ _ => true)
        (some (some (storedBlobWith ("/abc/g"))))).bind
      (fun cfg => getPath cfg [("naming"), ("patterns"), ("frames")])
      = some (.regex ("abc") ("g"))) ∧
    loadConfigFromDocument (fun _ _ => false)
      (some (some (storedBlobWith ("/[/")))) = none :=
  ⟨c6_load_failsoft_amended.2.2.1 (fun _ _ => true) ("hello") rfl rfl
      (by with_unfolding_all rfl),
   c6_load_failsoft_amended.2.2.2.1 (fun _ _ => true) ("/abc/g") ("abc") ("g") rfl rfl
      (by with_unfolding_all rfl) rfl,
   c6_load_failsoft_amended.2.2.2.2 (fun _ _ => false) ("/[/") ("[") ("")
      (by with_unfolding_all rfl) rfl⟩


/-- The child text node of the C9 scenario: font family Arial (not in the
allowed set), no assigned text style. -/
def arialTextNode : FigmaNode :=
  .mk { id := "2:1", name := "body-text", type := "TEXT",
        fontName := some (.font "Arial") } .absent

/-- The C9 scenario frame: named `Screen - home`, width 328, one text
child. -/
def screenHomeFrame : FigmaNode :=
  .mk { id := "1:1", name := "Screen - home", type := "FRAME",
        x := 0, y := 0, width := 328, height := 240, hasWidthHeight := true,
        layoutMode := some "NONE" } (.present (.cons arialTextNode .nil))

set_option maxHeartbeats 2000000 in
/-- C9: under the default configuration, evaluating the `Screen - home`
frame with its Arial, style-less text child at `deep = true` yields a
failing result with at least two issues, exactly two of them in the
typography category: the non-standard-font issue and the missing-style
issue for the text node.  (The full run also reports the two required
screen components as missing, for four issues in total.) -/
theorem c9_default_scenario :
    (runAllChecks defaultConfig screenHomeFrame true).passed = false ∧
    2 ≤ (runAllChecks defaultConfig screenHomeFrame true).issues.length ∧
    lookupCount (runAllChecks defaultConfig screenHomeFrame true).stats.categoryCounts
      ("typography") = some 2 ∧
    (⟨"typography", "Non-standard font \"Arial\" used in \"body-text\"", "2:1"⟩ : CheckIssue)
      ∈ (runAllChecks defaultConfig screenHomeFrame true).issues ∧
    (⟨"typography", "Text \"body-text\" is not using any text style", "2:1"⟩ : CheckIssue)
      ∈ (runAllChecks defaultConfig screenHomeFrame true).issues := by
  have h : runAllChecks defaultConfig screenHomeFrame true =
      ⟨false,
       [⟨"components", "Screen - home is missing required component: Navigation", "1:1"⟩,
        ⟨"components", "Screen - home is missing required component: StatusBar", "1:1"⟩,
        ⟨"typography", "Non-standard font \"Arial\" used in \"body-text\"", "2:1"⟩,
        ⟨"typography", "Text \"body-text\" is not using any text style", "2:1"⟩],
       ⟨2, 4, [("components", 2), ("typography", 2)]⟩⟩ := by
    with_unfolding_all rfl
  rw [h]
  refine ⟨rfl, by norm_num, rfl, by simp, by simp⟩

/-- Number of issues of a category in an issue list. -/
def categoryCountOf (issues : List CheckIssue) (cat : String) : Nat :=
  (issues.filter (fun i => i.category == cat)).length

/-- The result-consistency invariant of a `CheckResults` value: `passed`
holds exactly when there are no issues, `issuesFound` is the issue count,
and `categoryCounts` maps a category to its exact issue count, holding an
entry only for categories with at least one issue. -/
def resultInvariant (r : CheckResults) : Prop :=
  r.passed = r.issues.isEmpty ∧
  r.stats.issuesFound = r.issues.length ∧
  ∀ cat, lookupCount r.stats.categoryCounts cat =
    (if categoryCountOf r.issues cat = 0 then none
     else some (categoryCountOf r.issues cat))

/-- One checker step: the result keeps `nodesChecked` unchanged and
preserves the result invariant. -/
def CheckStep (r r2 : CheckResults) : Prop :=
  r2.stats.nodesChecked = r.stats.nodesChecked ∧
  (resultInvariant r → resultInvariant r2)

theorem checkStep_rfl (r : CheckResults) : CheckStep r r :=
  ⟨rfl, fun h => h⟩

theorem checkStep_trans {r1 r2 r3 : CheckResults}
    (h1 : CheckStep r1 r2) (h2 : CheckStep r2 r3) : CheckStep r1 r3 :=
  ⟨h2.1.trans h1.1, fun h => h2.2 (h1.2 h)⟩

theorem lookupCount_setCount_self (l : List (String × Nat)) (k : String) (n : Nat) :
    lookupCount (setCount l k n) k = some n := by
  induction l with
  | nil => simp [setCount, lookupCount]
  | cons kv rest ih =>
    by_cases h : kv.1 == k
    · simp [setCount, lookupCount, h]
    · simp [setCount, lookupCount, h, ih]

theorem lookupCount_setCount_ne (l : List (String × Nat)) (k : String) (n : Nat)
    (k2 : String) (h : ¬ (k = k2)) :
    lookupCount (setCount l k n) k2 = lookupCount l k2 := by
  have hb : (k == k2) = false := by simpa using h
  induction l with
  | nil => simp [setCount, lookupCount, hb]
  | cons kv rest ih =>
    by_cases hkv : kv.1 == k
    · have : kv.1 = k := by simpa using hkv
      subst this
      simp [setCount, lookupCount, hb]
    · simp [setCount, lookupCount, hkv, ih]

theorem categoryCountOf_append (issues : List CheckIssue) (cat c m i : String) :
    categoryCountOf (issues ++ [⟨c, m, i⟩]) cat
      = categoryCountOf issues cat + (if c == cat then 1 else 0) := by
  by_cases hb : (c == cat) = true <;>
    simp [categoryCountOf, List.filter_append, List.filter, hb]

theorem addIssue_step (r : CheckResults) (cat msg nid : String) :
    CheckStep r (addIssue r cat msg nid) := by
  refine ⟨rfl, ?_⟩
  rintro ⟨hp, hlen, hcnt⟩
  have hcat := hcnt cat
  refine ⟨by simp [addIssue], by simp [addIssue, hlen], ?_⟩
  intro c
  have hcc := hcnt c
  by_cases hceq : cat = c
  · subst hceq
    have hbeq : (cat == cat) = true := by simp
    by_cases h0 : categoryCountOf r.issues cat = 0
    · rw [if_pos h0] at hcat
      have hz : (lookupCount r.stats.categoryCounts cat).getD 0 = 0 := by
        rw [hcat]; rfl
      simp only [addIssue]
      rw [if_pos hz]
      rw [lookupCount_setCount_self, lookupCount_setCount_self]
      simp [categoryCountOf_append, h0, hbeq]
    · rw [if_neg h0] at hcat
      have hz : ¬ ((lookupCount r.stats.categoryCounts cat).getD 0 = 0) := by
        rw [hcat]; simpa using h0
      simp only [addIssue]
      rw [if_neg hz, hcat]
      simp only [Option.getD_some]
      rw [lookupCount_setCount_self]
      simp [categoryCountOf_append, hbeq]
  · have hbeq : (cat == c) = false := by simpa using hceq
    have hcountc : categoryCountOf (r.issues ++ [⟨cat, msg, nid⟩]) c
        = categoryCountOf r.issues c := by
      simp [categoryCountOf_append, hbeq]
    by_cases hz : (lookupCount r.stats.categoryCounts cat).getD 0 = 0
    · simp only [addIssue]
      rw [if_pos hz]
      rw [lookupCount_setCount_ne _ _ _ _ hceq, lookupCount_setCount_ne _ _ _ _ hceq,
        hcountc]
      exact hcc
    · simp only [addIssue]
      rw [if_neg hz]
      rw [lookupCount_setCount_ne _ _ _ _ hceq, hcountc]
      exact hcc

theorem checkStep_if {c : Prop} [Decidable c] {r a b : CheckResults}
    (h1 : CheckStep r a) (h2 : CheckStep r b) : CheckStep r (if c then a else b) := by
  split
  · exact h1
  · exact h2

theorem checkStep_condAdd (r : CheckResults) (c : Prop) [Decidable c]
    (cat m i : String) :
    CheckStep r (if c then addIssue r cat m i else r) :=
  checkStep_if (addIssue_step r cat m i) (checkStep_rfl r)

theorem foldl_step {α : Type} (f : CheckResults → α → CheckResults) (l : List α)
    (h : ∀ r a, CheckStep r (f r a)) :
    ∀ r, CheckStep r (l.foldl f r) := by
  induction l with
  | nil => intro r; exact checkStep_rfl r
  | cons a rest ih => intro r; exact checkStep_trans (h r a) (ih _)

theorem checkColors_step (cfg : StandardsConfig) (n : FigmaNode) (r : CheckResults) :
    CheckStep r (checkColors cfg n r) := by
  unfold checkColors
  have h1 : ∀ r2 : CheckResults, CheckStep r2 (match n.props.fills with
      | some fills =>
        fills.foldl
          (fun r fill =>
            if fill.type == "SOLID" && fill.visible then
              let color := rgbToHex fill.color.r fill.color.g fill.color.b
              if !isColorAllowed cfg color then
                addIssue r ("color")
                  ("Non-standard color " ++ color ++ " used in " ++ n.name) n.id
              else r
            else r)
          r2
      | none => r2) := by
    intro r2
    cases n.props.fills with
    | none => exact checkStep_rfl r2
    | some fills =>
      refine foldl_step _ _ ?_ r2
      intro r3 fill
      dsimp only
      exact checkStep_if (checkStep_if (addIssue_step _ _ _ _) (checkStep_rfl _))
        (checkStep_rfl _)
  refine checkStep_trans (h1 r) ?_
  cases n.props.strokes with
  | none => exact checkStep_rfl _
  | some strokes =>
    refine foldl_step _ _ ?_ _
    intro r3 stroke
    dsimp only
    exact checkStep_if (checkStep_if (addIssue_step _ _ _ _) (checkStep_rfl _))
      (checkStep_rfl _)

theorem checkTypography_step (cfg : StandardsConfig) (n : FigmaNode) (r : CheckResults) :
    CheckStep r (checkTypography cfg n r) := by
  unfold checkTypography
  refine checkStep_if ?_ (checkStep_rfl r)
  refine checkStep_trans ?_ (checkStep_if (addIssue_step _ _ _ _) (checkStep_rfl _))
  cases hf : n.props.fontName with
  | none => exact checkStep_rfl r
  | some fv =>
    cases fv with
    | font fam => exact checkStep_if (addIssue_step _ _ _ _) (checkStep_rfl r)
    | mixed => exact checkStep_rfl r

theorem checkSpacing_step (cfg : StandardsConfig) (n : FigmaNode) (r : CheckResults) :
    CheckStep r (checkSpacing cfg n r) := by
  unfold checkSpacing
  refine checkStep_if ?_ (checkStep_rfl r)
  refine checkStep_trans ?_ (checkStep_if ?_ (checkStep_rfl _))
  · refine checkStep_trans ?_ (checkStep_condAdd _ _ _ _ _)
    refine checkStep_trans ?_ (checkStep_condAdd _ _ _ _ _)
    refine checkStep_trans ?_ (checkStep_condAdd _ _ _ _ _)
    exact checkStep_condAdd _ _ _ _ _
  · cases hl : n.props.layoutMode with
    | none => exact checkStep_rfl _
    | some mode =>
      refine checkStep_if ?_ (checkStep_rfl _)
      refine checkStep_trans ?_ (checkStep_condAdd _ _ _ _ _)
      refine checkStep_trans ?_ (checkStep_condAdd _ _ _ _ _)
      refine checkStep_trans ?_ (checkStep_condAdd _ _ _ _ _)
      exact checkStep_condAdd _ _ _ _ _

theorem checkComponents_step (cfg : StandardsConfig) (n : FigmaNode) (r : CheckResults) :
    CheckStep r (checkComponents cfg n r) := by
  unfold checkComponents
  refine checkStep_trans ?_
    (checkStep_if (checkStep_if (addIssue_step _ _ _ _) (checkStep_rfl _))
      (checkStep_rfl _))
  refine checkStep_if ?_ (checkStep_rfl r)
  cases hft : getFrameType n.name with
  | none => exact checkStep_rfl r
  | some ft =>
    dsimp only
    cases hlr : lookupRequired cfg.components.requiredComponents ft with
    | none => exact checkStep_rfl r
    | some req =>
      refine foldl_step _ _ ?_ r
      intro r3 rc
      dsimp only
      exact checkStep_condAdd _ _ _ _ _

theorem checkNaming_step (cfg : StandardsConfig) (n : FigmaNode) (r : CheckResults) :
    CheckStep r (checkNaming cfg n r) := by
  unfold checkNaming
  refine checkStep_trans ?_
    (checkStep_if (checkStep_condAdd _ _ _ _ _) (checkStep_rfl _))
  refine checkStep_trans ?_
    (checkStep_if (checkStep_condAdd _ _ _ _ _) (checkStep_rfl _))
  exact checkStep_if (checkStep_condAdd _ _ _ _ _) (checkStep_rfl _)

theorem checkAccessibility_step (cfg : StandardsConfig) (n : FigmaNode)
    (r : CheckResults) : CheckStep r (checkAccessibility cfg n r) := by
  unfold checkAccessibility
  refine checkStep_trans ?_
    (checkStep_if (checkStep_if (addIssue_step _ _ _ _) (checkStep_rfl _))
      (checkStep_rfl _))
  refine checkStep_if ?_ (checkStep_rfl r)
  cases hc : getNodeColor n with
  | none => exact checkStep_rfl r
  | some tc => exact checkStep_if (addIssue_step _ _ _ _) (checkStep_rfl r)

theorem checkOneNode_step (cfg : StandardsConfig) (n : FigmaNode) (r : CheckResults) :
    (checkOneNode cfg n r).stats.nodesChecked = r.stats.nodesChecked + 1 ∧
    (resultInvariant r → resultInvariant (checkOneNode cfg n r)) := by
  have h : CheckStep
      ({ r with stats := { r.stats with nodesChecked := r.stats.nodesChecked + 1 } })
      (checkOneNode cfg n r) := by
    unfold checkOneNode
    exact checkStep_trans (checkColors_step _ _ _)
      (checkStep_trans (checkTypography_step _ _ _)
        (checkStep_trans (checkSpacing_step _ _ _)
          (checkStep_trans (checkComponents_step _ _ _)
            (checkStep_trans (checkNaming_step _ _ _) (checkAccessibility_step _ _ _)))))
  refine ⟨h.1, fun hi => h.2 ?_⟩
  obtain ⟨a, b, c⟩ := hi
  exact ⟨a, b, c⟩

theorem processNode_count_false : ∀ (n : FigmaNode) (cfg : StandardsConfig)
    (r : CheckResults),
    (processNode n cfg r false).stats.nodesChecked = r.stats.nodesChecked + 1
  | .mk p copt, cfg, r => by
    simp only [processNode]
    simpa using (checkOneNode_step cfg (.mk p copt) r).1

mutual

theorem processNode_count_true : ∀ (n : FigmaNode) (cfg : StandardsConfig)
    (r : CheckResults),
    (processNode n cfg r true).stats.nodesChecked = r.stats.nodesChecked + nodeSize n
  | .mk p (.absent), cfg, r => by
    simp only [processNode]
    simpa [nodeSize] using (checkOneNode_step cfg (.mk p (.absent)) r).1
  | .mk p (.present cs), cfg, r => by
    simp only [processNode]
    have h1 := (checkOneNode_step cfg (.mk p (.present cs)) r).1
    have h2 := processChildren_count_true cs cfg (checkOneNode cfg (.mk p (.present cs)) r)
    simp only [nodeSize, if_true]
    omega
termination_by n _ _ => sizeOf n

theorem processChildren_count_true : ∀ (cs : NodeList) (cfg : StandardsConfig)
    (r : CheckResults),
    (processChildren cs cfg r true).stats.nodesChecked
      = r.stats.nodesChecked + nodeSizeList cs
  | .nil, cfg, r => by simp [processChildren, nodeSizeList]
  | .cons c rest, cfg, r => by
    simp only [processChildren]
    have h1 := processNode_count_true c cfg r
    have h2 := processChildren_count_true rest cfg (processNode c cfg r true)
    simp only [nodeSizeList]
    omega
termination_by cs _ _ => sizeOf cs

end

theorem processNode_inv_false : ∀ (n : FigmaNode) (cfg : StandardsConfig)
    (r : CheckResults),
    resultInvariant r → resultInvariant (processNode n cfg r false)
  | .mk p copt, cfg, r => by
    intro hi
    simp only [processNode]
    simpa using (checkOneNode_step cfg (.mk p copt) r).2 hi

mutual

theorem processNode_inv_true : ∀ (n : FigmaNode) (cfg : StandardsConfig)
    (r : CheckResults),
    resultInvariant r → resultInvariant (processNode n cfg r true)
  | .mk p (.absent), cfg, r => by
    intro hi
    simp only [processNode]
    simpa using (checkOneNode_step cfg (.mk p (.absent)) r).2 hi
  | .mk p (.present cs), cfg, r => by
    intro hi
    simp only [processNode]
    have h1 := (checkOneNode_step cfg (.mk p (.present cs)) r).2 hi
    simpa using processChildren_inv_true cs cfg (checkOneNode cfg (.mk p (.present cs)) r) h1
termination_by n _ _ => sizeOf n

theorem processChildren_inv_true : ∀ (cs : NodeList) (cfg : StandardsConfig)
    (r : CheckResults),
    resultInvariant r → resultInvariant (processChildren cs cfg r true)
  | .nil, cfg, r => fun hi => hi
  | .cons c rest, cfg, r => by
    intro hi
    simp only [processChildren]
    exact processChildren_inv_true rest cfg (processNode c cfg r true)
      (processNode_inv_true c cfg r hi)
termination_by cs _ _ => sizeOf cs

end

/-- C8: `nodesChecked` equals the visited subtree size — exactly one for a
quick check (`deep = false`), and the full size of the subtree rooted at
the node for a deep check; each visited node is counted exactly once no
matter how many issues it produced, and no node is counted twice. -/
theorem c8_nodes_checked (cfg : StandardsConfig) (node : FigmaNode) :
    (runAllChecks cfg node false).stats.nodesChecked = 1 ∧
    (runAllChecks cfg node true).stats.nodesChecked = nodeSize node := by
  unfold runAllChecks
  constructor
  · simpa using processNode_count_false node cfg ⟨true, [], ⟨0, 0, []⟩⟩
  · simpa using processNode_count_true node cfg ⟨true, [], ⟨0, 0, []⟩⟩

/-- C7: `addIssue` preserves the result invariants (so they hold after
every single issue append, including a late asynchronous one), and every
evaluation result satisfies them: `passed` iff no issues, `issuesFound`
equal to the issue count, and `categoryCounts` holding exactly the
per-category counts, with an entry only for categories having at least one
issue. -/
theorem c7_result_invariants :
    (∀ (r : CheckResults) (cat msg nid : String),
      resultInvariant r → resultInvariant (addIssue r cat msg nid)) ∧
    (∀ (cfg : StandardsConfig) (node : FigmaNode) (deep : Bool),
      resultInvariant (runAllChecks cfg node deep)) := by
  constructor
  · intro r cat msg nid hi
    exact (addIssue_step r cat msg nid).2 hi
  · intro cfg node deep
    unfold runAllChecks
    have hi0 : resultInvariant ⟨true, [], ⟨0, 0, []⟩⟩ := by
      refine ⟨rfl, rfl, ?_⟩
      intro cat
      simp [lookupCount, categoryCountOf]
    cases deep with
    | false => exact processNode_inv_false node cfg _ hi0
    | true => exact processNode_inv_true node cfg _ hi0

/-- C7 witness: the invariants hold of a concrete evaluation result and
are preserved by a concrete issue append onto it. -/
theorem c7_result_invariants_witness :
    resultInvariant (runAllChecks defaultConfig arialTextNode false) ∧
    resultInvariant
      (addIssue (runAllChecks defaultConfig arialTextNode false) ("color") ("m") ("1:1")) :=
  ⟨c7_result_invariants.2 defaultConfig arialTextNode false,
   c7_result_invariants.1 _ ("color") ("m") ("1:1")
     (c7_result_invariants.2 defaultConfig arialTextNode false)⟩

def restrictRC (rc : List (String × List String)) : List (String × List String) :=
  rc.filter (fun kv => kv.1 == "screen" || kv.1 == "card")

def restrictRequiredComponents (cfg : StandardsConfig) : StandardsConfig :=
  { cfg with components :=
      { cfg.components with
          requiredComponents := restrictRC cfg.components.requiredComponents } }

theorem getFrameType_cases (name : String) :
    getFrameType name = none ∨ getFrameType name = some ("screen")
      ∨ getFrameType name = some ("card") := by
  unfold getFrameType
  by_cases h1 : strIncludes (toLowerStr name) ("screen")
  · right; left; simp [h1]
  · by_cases h2 : strIncludes (toLowerStr name) ("card")
    · right; right; simp [h1, h2]
    · left; simp [h1, h2]

theorem lookupRequired_filter (rc : List (String × List String)) (key : String)
    (hkey : (key == "screen" || key == "card") = true) :
    lookupRequired (restrictRC rc) key = lookupRequired rc key := by
  unfold restrictRC
  induction rc with
  | nil => rfl
  | cons kv rest ih =>
    by_cases hk : (kv.1 == key) = true
    · have hkk : kv.1 = key := by simpa using hk
      have hpred : (kv.1 == "screen" || kv.1 == "card") = true := by rw [hkk]; exact hkey
      simp [List.filter_cons, hpred, lookupRequired, hk]
    · by_cases hpred : (kv.1 == "screen" || kv.1 == "card") = true
      · simp [List.filter_cons, hpred, lookupRequired, hk, ih]
      · simp [List.filter_cons, hpred, lookupRequired, hk, ih]

theorem checkComponents_restrict (cfg : StandardsConfig) (n : FigmaNode)
    (r : CheckResults) :
    checkComponents (restrictRequiredComponents cfg) n r = checkComponents cfg n r := by
  unfold checkComponents
  have hrc : (restrictRequiredComponents cfg).components.requiredComponents
      = restrictRC cfg.components.requiredComponents := rfl
  rcases getFrameType_cases n.name with h | h | h
  · rw [h]
    with_unfolding_all rfl
  · rw [h]
    dsimp only
    rw [hrc, lookupRequired_filter _ _ (by rfl)]
    with_unfolding_all rfl
  · rw [h]
    dsimp only
    rw [hrc, lookupRequired_filter _ _ (by rfl)]
    with_unfolding_all rfl

theorem checkOneNode_restrict (cfg : StandardsConfig) (n : FigmaNode)
    (r : CheckResults) :
    checkOneNode (restrictRequiredComponents cfg) n r = checkOneNode cfg n r := by
  unfold checkOneNode
  simp only [checkComponents_restrict]
  with_unfolding_all rfl

theorem processNode_restrict_false : ∀ (n : FigmaNode) (cfg : StandardsConfig)
    (r : CheckResults),
    processNode n (restrictRequiredComponents cfg) r false = processNode n cfg r false
  | .mk p copt, cfg, r => by
    simp only [processNode]
    rw [checkOneNode_restrict]
    with_unfolding_all rfl

mutual

theorem processNode_restrict_true : ∀ (n : FigmaNode) (cfg : StandardsConfig)
    (r : CheckResults),
    processNode n (restrictRequiredComponents cfg) r true = processNode n cfg r true
  | .mk p (.absent), cfg, r => by
    simp only [processNode]
    rw [checkOneNode_restrict]
  | .mk p (.present cs), cfg, r => by
    simp only [processNode]
    rw [checkOneNode_restrict,
      processChildren_restrict_true cs cfg (checkOneNode cfg (.mk p (.present cs)) r)]
termination_by n _ _ => sizeOf n

theorem processChildren_restrict_true : ∀ (cs : NodeList) (cfg : StandardsConfig)
    (r : CheckResults),
    processChildren cs (restrictRequiredComponents cfg) r true
      = processChildren cs cfg r true
  | .nil, cfg, r => rfl
  | .cons c rest, cfg, r => by
    simp only [processChildren]
    rw [processNode_restrict_true c cfg r,
      processChildren_restrict_true rest cfg (processNode c cfg r true)]
termination_by cs _ _ => sizeOf cs

end

/-- C10: entries of `components.requiredComponents` whose key is neither
"screen" nor "card" are silently ignored: `getFrameType` only ever returns
`none`, `"screen"` or `"card"`, and removing every other key from the
configuration leaves the result of `runAllChecks` unchanged on every node
tree, in both shallow and deep mode. -/
theorem c10_unknown_frame_keys_ignored :
    (∀ name : String, getFrameType name = none ∨ getFrameType name = some ("screen")
      ∨ getFrameType name = some ("card")) ∧
    (∀ (cfg : StandardsConfig) (node : FigmaNode) (deep : Bool),
      runAllChecks cfg node deep
        = runAllChecks (restrictRequiredComponents cfg) node deep) := by
  constructor
  · exact getFrameType_cases
  · intro cfg node deep
    unfold runAllChecks
    cases deep with
    | false => exact (processNode_restrict_false node cfg _).symm
    | true => exact (processNode_restrict_true node cfg _).symm

end DSC
